import Mathlib

/-!
Verification development for the difficulty-tunable move-selection HTTP service
(src/src/main.cc).  The service bridges a synchronous HTTP handler to an
asynchronous engine callback through a single optional response slot, caches
engine instances per model weight, and maps a difficulty scalar to a fixed
table of search profiles.

Modelling conventions:
* The C++ float difficulty scalar and the double threshold literals are
  idealised as exact rationals; bit-level IEEE rounding is out of scope.
* Machine integers (std int64, int) stay well inside their ranges here, so
  they are modelled as Int without wraparound.
* The engine itself (lczero) is an external collaborator; the few external
  types the bridge touches (squares, moves, promotions) are modelled from the
  spec where their sources are not part of this repository.
-/

namespace LcServe

/-- Model weight identifiers, from the constant table at the top of main.cc. -/
def EngineWeight_Maia_1100 : String := "maia-1100.pb"

def EngineWeight_Maia_1500 : String := "maia-1500.pb"

def EngineWeight_Maia_1900 : String := "maia-1900.pb"

def EngineWeight_Elo_206 : String := "elo-206"

def EngineWeight_Elo_416 : String := "elo-416"

def EngineWeight_Elo_754 : String := "elo-754"

def EngineWeight_Elo_999 : String := "elo-999"

def EngineWeight_Elo_2100 : String := "elo-2100"

def EngineWeight_Elo_2304 : String := "elo-2304"

def EngineWeight_Elo_2701 : String := "elo-2701"

/-- Search profile for one difficulty bucket: struct BotDifficultySettings in
main.cc.  Field order follows the C++ aggregate: movetime (ms), depth, nodes,
temperature, model.  A depth or nodes value of 0 means the corresponding limit
is not passed to the engine (unlimited). -/
structure BotDifficultySettings where
  movetime : Int
  depth : Int
  nodes : Int
  temperature : ℚ
  model : String
deriving DecidableEq, Repr

/-- Difficulty resolver, translated clause by clause from getMovetime in
main.cc.  The float comparisons against the literals 0.1 .. 0.9 are modelled
as exact rational comparisons. -/
def getMovetime (difficulty : ℚ) : BotDifficultySettings :=
  if difficulty ≤ 1/10 then ⟨200, 1, 1, 1/2, EngineWeight_Elo_206⟩
  else if difficulty ≤ 2/10 then ⟨200, 1, 1, 1/2, EngineWeight_Elo_416⟩
  else if difficulty ≤ 3/10 then ⟨200, 2, 1, 1/2, EngineWeight_Elo_754⟩
  else if difficulty ≤ 4/10 then ⟨200, 30, 0, 1/2, EngineWeight_Elo_999⟩
  else if difficulty ≤ 5/10 then ⟨200, 4, 1, 1/2, EngineWeight_Maia_1100⟩
  else if difficulty ≤ 6/10 then ⟨200, 0, 1, 1/2, EngineWeight_Maia_1500⟩
  else if difficulty ≤ 7/10 then ⟨200, 0, 1, 1/2, EngineWeight_Maia_1900⟩
  else if difficulty ≤ 8/10 then ⟨200, 8, 1, 1/2, EngineWeight_Elo_2100⟩
  else if difficulty ≤ 9/10 then ⟨200, 13, 1, 1/2, EngineWeight_Elo_2304⟩
  else ⟨200, 18, 1, 1/2, EngineWeight_Elo_2701⟩

/-- Index of the bucket that the cascade of comparisons in getMovetime
selects: same conditions, returning the bucket position instead of the
profile. -/
def bucketIndex (difficulty : ℚ) : ℕ :=
  if difficulty ≤ 1/10 then 0
  else if difficulty ≤ 2/10 then 1
  else if difficulty ≤ 3/10 then 2
  else if difficulty ≤ 4/10 then 3
  else if difficulty ≤ 5/10 then 4
  else if difficulty ≤ 6/10 then 5
  else if difficulty ≤ 7/10 then 6
  else if difficulty ≤ 8/10 then 7
  else if difficulty ≤ 9/10 then 8
  else 9

/-- The fixed profile table of getMovetime, by bucket position; every index
at or beyond the last bucket falls into the final catch-all clause of the
source. -/
def profileOf : ℕ → BotDifficultySettings
  | 0 => ⟨200, 1, 1, 1/2, EngineWeight_Elo_206⟩
  | 1 => ⟨200, 1, 1, 1/2, EngineWeight_Elo_416⟩
  | 2 => ⟨200, 2, 1, 1/2, EngineWeight_Elo_754⟩
  | 3 => ⟨200, 30, 0, 1/2, EngineWeight_Elo_999⟩
  | 4 => ⟨200, 4, 1, 1/2, EngineWeight_Maia_1100⟩
  | 5 => ⟨200, 0, 1, 1/2, EngineWeight_Maia_1500⟩
  | 6 => ⟨200, 0, 1, 1/2, EngineWeight_Maia_1900⟩
  | 7 => ⟨200, 8, 1, 1/2, EngineWeight_Elo_2100⟩
  | 8 => ⟨200, 13, 1, 1/2, EngineWeight_Elo_2304⟩
  | _ => ⟨200, 18, 1, 1/2, EngineWeight_Elo_2701⟩

/-- Membership of a difficulty value in bucket i, stated from the interval
structure of the table: bucket i covers the range whose inclusive upper
threshold is (i+1)/10 and whose exclusive lower threshold is i/10; the lowest
bucket has no lower bound and the highest bucket has no upper bound. -/
def inBucket (i : ℕ) (d : ℚ) : Prop :=
  i ≤ 9 ∧ (i = 0 ∨ (i : ℚ)/10 < d) ∧ (i = 9 ∨ d ≤ ((i : ℚ) + 1)/10)

instance (i : ℕ) (d : ℚ) : Decidable (inBucket i d) := by
  unfold inBucket; infer_instance

/-- Exact rational value of the binary64 double literal used in the k-th
comparison of getMovetime: the C++ source compares the float input, promoted
to double, against the double constants 0.1 .. 0.9, and of these only 0.5 is
exactly representable.  These are the exact IEEE-754 values of the nine
literals. -/
def dblThreshold : ℕ → ℚ
  | 0 => 3602879701896397 / 36028797018963968
  | 1 => 3602879701896397 / 18014398509481984
  | 2 => 5404319552844595 / 18014398509481984
  | 3 => 3602879701896397 / 9007199254740992
  | 4 => 1/2
  | 5 => 5404319552844595 / 9007199254740992
  | 6 => 3152519739159347 / 4503599627370496
  | 7 => 3602879701896397 / 4503599627370496
  | _ => 8106479329266893 / 9007199254740992

/-- Machine-precision difficulty resolver: the same cascade as getMovetime,
with each comparison made against the exact value of the double literal, as
the C++ float-promoted-to-double comparison does.  The argument is the exact
rational value of the promoted float input. -/
def getMovetimeMachine (difficulty : ℚ) : BotDifficultySettings :=
  if difficulty ≤ 3602879701896397 / 36028797018963968 then
    ⟨200, 1, 1, 1/2, EngineWeight_Elo_206⟩
  else if difficulty ≤ 3602879701896397 / 18014398509481984 then
    ⟨200, 1, 1, 1/2, EngineWeight_Elo_416⟩
  else if difficulty ≤ 5404319552844595 / 18014398509481984 then
    ⟨200, 2, 1, 1/2, EngineWeight_Elo_754⟩
  else if difficulty ≤ 3602879701896397 / 9007199254740992 then
    ⟨200, 30, 0, 1/2, EngineWeight_Elo_999⟩
  else if difficulty ≤ 1/2 then
    ⟨200, 4, 1, 1/2, EngineWeight_Maia_1100⟩
  else if difficulty ≤ 5404319552844595 / 9007199254740992 then
    ⟨200, 0, 1, 1/2, EngineWeight_Maia_1500⟩
  else if difficulty ≤ 3152519739159347 / 4503599627370496 then
    ⟨200, 0, 1, 1/2, EngineWeight_Maia_1900⟩
  else if difficulty ≤ 3602879701896397 / 4503599627370496 then
    ⟨200, 8, 1, 1/2, EngineWeight_Elo_2100⟩
  else if difficulty ≤ 8106479329266893 / 9007199254740992 then
    ⟨200, 13, 1, 1/2, EngineWeight_Elo_2304⟩
  else ⟨200, 18, 1, 1/2, EngineWeight_Elo_2701⟩

/-- Bucket position selected by the machine-precision cascade. -/
def bucketIndexMachine (difficulty : ℚ) : ℕ :=
  if difficulty ≤ 3602879701896397 / 36028797018963968 then 0
  else if difficulty ≤ 3602879701896397 / 18014398509481984 then 1
  else if difficulty ≤ 5404319552844595 / 18014398509481984 then 2
  else if difficulty ≤ 3602879701896397 / 9007199254740992 then 3
  else if difficulty ≤ 1/2 then 4
  else if difficulty ≤ 5404319552844595 / 9007199254740992 then 5
  else if difficulty ≤ 3152519739159347 / 4503599627370496 then 6
  else if difficulty ≤ 3602879701896397 / 4503599627370496 then 7
  else if difficulty ≤ 8106479329266893 / 9007199254740992 then 8
  else 9

/-- Membership of a difficulty value in bucket i under the machine-precision
thresholds: inclusive upper threshold dblThreshold i, exclusive lower
threshold dblThreshold (i-1); the lowest bucket has no lower bound and the
highest no upper bound. -/
def inBucketMachine (i : ℕ) (d : ℚ) : Prop :=
  i ≤ 9 ∧ (i = 0 ∨ dblThreshold (i - 1) < d) ∧ (i = 9 ∨ d ≤ dblThreshold i)

/-- Exact rational value of the binary32 float that std stof produces for
the request parameter value 0.3: it is 0.300000011920928955078125, strictly
greater than the double literal 0.3. -/
def parsedFloat03 : ℚ := 5033165 / 16777216

set_option maxHeartbeats 1000000 in
/-- Resolving a difficulty returns exactly the table entry at the selected
bucket position. -/
theorem getMovetime_eq_profileOf (d : ℚ) :
    getMovetime d = profileOf (bucketIndex d) := by
  unfold getMovetime bucketIndex
  split_ifs <;> rfl

/-- The index selected by the comparison cascade lies in its own bucket. -/
theorem bucketIndex_mem (d : ℚ) : inBucket (bucketIndex d) d := by
  unfold bucketIndex inBucket
  split_ifs with h1 h2 h3 h4 h5 h6 h7 h8 h9 <;>
    refine ⟨by norm_num, ?_, ?_⟩ <;>
    norm_num <;>
    linarith

/-- Two distinct bucket indices cannot both contain the same difficulty
value: the inclusive upper threshold of the lower bucket is at most the
exclusive lower threshold of the higher one. -/
theorem inBucket_unique (d : ℚ) (i j : ℕ)
    (hi : inBucket i d) (hj : inBucket j d) : i = j := by
  obtain ⟨hi9, hiLo, hiHi⟩ := hi
  obtain ⟨hj9, hjLo, hjHi⟩ := hj
  by_contra hne
  rcases Nat.lt_or_ge i j with hlt | hge
  · have hi9' : i ≠ 9 := by omega
    have hj0 : j ≠ 0 := by omega
    rcases hiHi with h | hup
    · exact hi9' h
    rcases hjLo with h | hlo
    · exact hj0 h
    have hcast : ((i : ℚ) + 1) ≤ (j : ℚ) := by exact_mod_cast hlt
    linarith
  · have hlt : j < i := by omega
    have hj9' : j ≠ 9 := by omega
    have hi0 : i ≠ 0 := by omega
    rcases hjHi with h | hup
    · exact hj9' h
    rcases hiLo with h | hlo
    · exact hi0 h
    have hcast : ((j : ℚ) + 1) ≤ (i : ℚ) := by exact_mod_cast hlt
    linarith

/-- Bucket membership coincides with the index selected by the comparison
cascade, so the buckets partition the rationals. -/
theorem inBucket_iff (d : ℚ) (i : ℕ) :
    inBucket i d ↔ i = bucketIndex d := by
  constructor
  · intro hi
    exact inBucket_unique d i (bucketIndex d) hi (bucketIndex_mem d)
  · rintro rfl
    exact bucketIndex_mem d

/-- Modelled from the spec: the promotion tag of a move produced by the
external engine (lczero Move::Promotion is not part of this repository).  The
spec data model has promotion as an optional piece kind; the switch in
getPromotionAsString handles Bishop, Knight, Queen and Rook, and the
fall-through return handles the no-promotion tag. -/
inductive Promotion where
  | NoPromotion
  | Queen
  | Rook
  | Bishop
  | Knight
deriving DecidableEq, Repr

/-- Modelled from the spec: a board square of the external engine, rendered
in algebraic notation (for example "e2") by as_string.  Column 0..7 is file
letter a..h, row 0..7 is rank digit 1..8. -/
structure BoardSquare where
  row : Fin 8
  col : Fin 8
deriving DecidableEq, Repr

/-- Modelled from the spec: algebraic-notation rendering of a square, file
letter then rank digit. -/
def BoardSquare.as_string (s : BoardSquare) : String :=
  String.mk [Char.ofNat (97 + s.col.val), Char.ofNat (49 + s.row.val)]

/-- Modelled from the spec: the move produced by the external engine, with a
source square, a destination square, and an optional promotion.  The C++
accessors from() and to() become the fields fromSq and toSq. -/
structure Move where
  fromSq : BoardSquare
  toSq : BoardSquare
  promotion : Promotion
deriving DecidableEq, Repr

/-- Best-move report delivered to the completion callback; only the bestmove
field is read by this layer. -/
structure BestMoveInfo where
  bestmove : Move
deriving DecidableEq, Repr

/-- Promotion suffix rendering, translated from getPromotionAsString in
main.cc: the switch covers the four piece kinds and the final return covers
the no-promotion tag. -/
def getPromotionAsString : Promotion → String
  | .Bishop => "b"
  | .Knight => "n"
  | .Queen => "q"
  | .Rook => "r"
  | .NoPromotion => ""

/-- JSON response body, translated from infoToJsonString in main.cc: the
promotion entry is appended exactly when the rendered promotion suffix is
nonempty. -/
def infoToJsonString (info : BestMoveInfo) : String :=
  "\x7b" ++ "\"result\":\x7b" ++
  "\"from\":\"" ++ info.bestmove.fromSq.as_string ++ "\"" ++
  ",\"to\":\"" ++ info.bestmove.toSq.as_string ++ "\"" ++
  (if getPromotionAsString info.bestmove.promotion ≠ "" then
    ",\"promotion\":\"" ++ getPromotionAsString info.bestmove.promotion ++ "\""
  else "") ++
  "\x7d" ++ "\x7d"

/-- Wire shape of a response body as the spec describes it: an object with
one result member holding from and to square strings and an optional
promotion suffix, the promotion member present exactly when the suffix is
present. -/
def responseShape (fromStr toStr : String) (promo : Option String) : String :=
  "\x7b" ++ "\"result\":\x7b" ++
  "\"from\":\"" ++ fromStr ++ "\"" ++
  ",\"to\":\"" ++ toStr ++ "\"" ++
  (match promo with
   | some p => ",\"promotion\":\"" ++ p ++ "\""
   | none => "") ++
  "\x7d" ++ "\x7d"

/-- Promotion suffix of a move as an optional string: none exactly when the
move carries no promotion. -/
def promoSuffix (p : Promotion) : Option String :=
  match p with
  | .NoPromotion => none
  | q => some (getPromotionAsString q)

/-- Identity of a response object (stand-in for the httplib Response pointer
stored in the shared optional slot). -/
abbrev ResponseId := ℕ

/-- Registry plus side-effect state of the engine cache.  The entries list
models the unordered map from weight name to engine instance, engine
instances being identified by their creation index; nextId counts
constructed engines; configLog records every SetUciOption call in order as
(weight, option name, option value). -/
structure RegistryState where
  entries : List (String × ℕ)
  nextId : ℕ
  configLog : List (String × String × String)
deriving DecidableEq, Repr

/-- Initial registry: empty map, no engines constructed, no options set. -/
def initialRegistry : RegistryState := ⟨[], 0, []⟩

/-- Rendering of the temperature for SetUciOption, standing in for the C++
std to_string of the float; its exact digit format is irrelevant to the
claims, which only count option-setting events. -/
def tempToString (q : ℚ) : String := toString q

/-- Configuration options applied to a newly constructed engine, in source
order: WeightsFile, Temperature, NNCacheSize (from getOrCreateEngine in
main.cc). -/
def configOptions (settings : BotDifficultySettings) : List (String × String) :=
  [("WeightsFile", settings.model),
   ("Temperature", tempToString settings.temperature),
   ("NNCacheSize", "20000")]

/-- Registry state after the cache-miss branch of getOrCreateEngine: the
new engine (identified by the next creation index) is inserted keyed by the
weight name and its three options are appended to the configuration log. -/
def createdRegistry (settings : BotDifficultySettings)
    (st : RegistryState) : RegistryState :=
  { entries := (settings.model, st.nextId) :: st.entries,
    nextId := st.nextId + 1,
    configLog :=
      st.configLog ++
        (configOptions settings).map (fun p => (settings.model, p.1, p.2)) }

/-- Engine cache lookup-or-create, translated from getOrCreateEngine in
main.cc: on a miss a new engine is constructed, its three options are set,
and it is inserted keyed by the weight name; on a hit the existing instance
is returned and nothing else happens.  Returns the engine identity and the
updated state. -/
def getOrCreateEngine (settings : BotDifficultySettings)
    (st : RegistryState) : ℕ × RegistryState :=
  match st.entries.lookup settings.model with
  | some id => (id, st)
  | none => (st.nextId, createdRegistry settings st)

/-- State of the result-handoff bridge: the shared optional response slot
(optionalRes in main.cc) together with the log of contents written into
response objects, in order.  An Armed slot holds the identity of the
response object of the request that stored it. -/
structure BridgeState where
  slot : Option ResponseId
  written : List (ResponseId × String)
deriving DecidableEq, Repr

/-- Outcome of one firing of the completion callback: either the process
continues in a new bridge state, or it aborts. -/
inductive StepResult where
  | next (s : BridgeState)
  | abortProcess
deriving DecidableEq, Repr

/-- Completion callback, translated from the CallbackUciResponder best-move
lambda in getOrCreateEngine (main.cc): if the optional slot holds a response
it writes the serialized body into that response and resets the slot;
otherwise it prints a diagnostic and aborts the process. -/
def fireCallback (info : BestMoveInfo) (s : BridgeState) : StepResult :=
  match s.slot with
  | some res =>
      .next { slot := none, written := s.written ++ [(res, infoToJsonString info)] }
  | none => .abortProcess

/-- Bridge state right after the request thread arms the slot with its own
response target (the assignment of the response address to the optional in
the Get handler), before any callback has fired. -/
def armedState (r : ResponseId) : BridgeState := { slot := some r, written := [] }

/-- Continuation condition of the request thread's polling loop in the Get
handler: spin while the slot still holds this request's response target. -/
def loopContinues (r : ResponseId) (s : BridgeState) : Bool :=
  s.slot == some r

/-- Reachability of one bridge state from another through zero or more
non-aborting firings of the completion callback. -/
inductive CallbackReaches (info : BestMoveInfo) : BridgeState → BridgeState → Prop
  | refl (s : BridgeState) : CallbackReaches info s s
  | step {s s' s'' : BridgeState} :
      fireCallback info s = .next s' →
      CallbackReaches info s' s'' →
      CallbackReaches info s s''

/-- Outcome of one HTTP request at the facade, as seen at the boundary of
the Get handler: either the process aborted before writing any response, or
a 200 response with the given body was produced. -/
inductive RequestResult where
  | fatal
  | ok (body : String)
deriving DecidableEq, Repr

/-- Per-request search parameters handed to the engine, translated from the
GoParams setup in the Get handler: movetime always, depth and nodes only
when positive (zero means the limit is not passed, that is, unlimited). -/
structure GoParams where
  movetime : Option Int
  depth : Option Int
  nodes : Option Int
deriving DecidableEq, Repr

/-- GoParams construction from a resolved profile, clause for clause from
the Get handler in main.cc. -/
def buildGoParams (settings : BotDifficultySettings) : GoParams :=
  { movetime := some settings.movetime,
    depth := if settings.depth > 0 then some settings.depth else none,
    nodes := if settings.nodes > 0 then some settings.nodes else none }

/-- Facade handling of one request, translated from the Get handler in
main.cc, sequential view: parse the difficulty (stof is passed in as the
parsing function, modelling std stof where failure means the exception
path), resolve the profile, obtain or create the engine, run the search
(the external engine is abstracted as the engineRun argument mapping the
profile, go parameters and fen to the best-move report the callback will
deliver), and produce the serialized body the callback wrote into this
request's response.  A parse failure takes the catch-and-abort path: no
response is written. -/
def handleRequest (stof : String → Option ℚ)
    (difficultyParam fen : String)
    (engineRun : BotDifficultySettings → GoParams → String → BestMoveInfo)
    (st : RegistryState) : RequestResult × RegistryState :=
  match stof difficultyParam with
  | none => (.fatal, st)
  | some d =>
      let settings := getMovetime d
      let (_, st') := getOrCreateEngine settings st
      let info := engineRun settings (buildGoParams settings) fen
      (.ok (infoToJsonString info), st')

/-- Every bucket of the table carries the same 200 ms time budget. -/
theorem getMovetime_movetime (d : ℚ) : (getMovetime d).movetime = 200 := by
  unfold getMovetime
  split_ifs <;> rfl

/-- Every bucket of the table carries the same temperature 1/2. -/
theorem getMovetime_temperature (d : ℚ) : (getMovetime d).temperature = 1/2 := by
  unfold getMovetime
  split_ifs <;> rfl

/-- Sample best-move report (pawn e2 to e4, no promotion) used to
instantiate hypotheses at concrete inputs. -/
def sampleInfo : BestMoveInfo :=
  ⟨⟨⟨1, 4⟩, ⟨3, 4⟩, .NoPromotion⟩⟩

/-- Sample best-move report with a queen promotion (e7 to e8). -/
def samplePromoInfo : BestMoveInfo :=
  ⟨⟨⟨6, 4⟩, ⟨7, 4⟩, .Queen⟩⟩

/-- A bridge state whose slot is empty is terminal for the callback: any
further firing aborts, so no non-aborting sequence of firings leaves it. -/
theorem callbackReaches_terminal {info : BestMoveInfo} {s s' : BridgeState}
    (h : s.slot = none) (hr : CallbackReaches info s s') : s' = s := by
  cases hr with
  | refl => rfl
  | step hstep _ =>
      rw [show fireCallback info s = StepResult.abortProcess by
            unfold fireCallback; rw [h]] at hstep
      exact StepResult.noConfusion hstep

set_option maxHeartbeats 1000000 in
/-- Machine-precision resolution returns exactly the table entry at the
machine-selected bucket position. -/
theorem getMovetimeMachine_eq_profileOf (d : ℚ) :
    getMovetimeMachine d = profileOf (bucketIndexMachine d) := by
  unfold getMovetimeMachine bucketIndexMachine
  split_ifs <;> rfl

set_option maxHeartbeats 1000000 in
/-- The machine-selected index lies in its own machine-precision bucket. -/
theorem bucketIndexMachine_mem (d : ℚ) :
    inBucketMachine (bucketIndexMachine d) d := by
  unfold bucketIndexMachine inBucketMachine
  split_ifs with h1 h2 h3 h4 h5 h6 h7 h8 h9 <;>
    refine ⟨by norm_num, ?_, ?_⟩ <;>
    norm_num [dblThreshold] <;>
    linarith

set_option maxHeartbeats 1000000 in
/-- The nine machine-precision thresholds are monotone in the bucket
index. -/
theorem dblThreshold_mono {i j : ℕ} (hij : i ≤ j) (hj : j ≤ 8) :
    dblThreshold i ≤ dblThreshold j := by
  have hi : i ≤ 8 := le_trans hij hj
  interval_cases i <;> interval_cases j <;> norm_num [dblThreshold]

/-- Two distinct machine-precision buckets cannot both contain the same
difficulty value. -/
theorem inBucketMachine_unique (d : ℚ) (i j : ℕ)
    (hi : inBucketMachine i d) (hj : inBucketMachine j d) : i = j := by
  obtain ⟨hi9, hiLo, hiHi⟩ := hi
  obtain ⟨hj9, hjLo, hjHi⟩ := hj
  by_contra hne
  rcases Nat.lt_or_ge i j with hlt | hge
  · rcases hiHi with h | hup
    · omega
    rcases hjLo with h | hlo
    · omega
    have hmono : dblThreshold i ≤ dblThreshold (j - 1) :=
      dblThreshold_mono (by omega) (by omega)
    linarith
  · have hlt : j < i := by omega
    rcases hjHi with h | hup
    · omega
    rcases hiLo with h | hlo
    · omega
    have hmono : dblThreshold j ≤ dblThreshold (i - 1) :=
      dblThreshold_mono (by omega) (by omega)
    linarith

set_option maxHeartbeats 1000000 in
/-- The float parsed from the request value 0.3 fails the first three
comparisons of the machine cascade (it exceeds the double 0.3) and passes
the fourth, landing in the elo-999 bucket. -/
theorem getMovetimeMachine_parsedFloat03 :
    getMovetimeMachine parsedFloat03
      = ⟨200, 30, 0, 1/2, EngineWeight_Elo_999⟩ := by
  unfold getMovetimeMachine parsedFloat03
  rw [if_neg (by norm_num), if_neg (by norm_num), if_neg (by norm_num),
      if_pos (by norm_num)]

set_option maxHeartbeats 1000000 in
/-- C1 counterexample: the float that stof produces for the request value
0.3 lies strictly between the double literals 0.3 and 0.4, so the machine
cascade assigns it to the fourth bucket (elo-999) and not to the le-0.3
bucket (elo-754) that the claim requires for the boundary value. -/
theorem claim1_boundary_counterexample :
    dblThreshold 2 < parsedFloat03 ∧ parsedFloat03 < dblThreshold 3 ∧
    getMovetimeMachine parsedFloat03
      = ⟨200, 30, 0, 1/2, EngineWeight_Elo_999⟩ ∧
    getMovetimeMachine parsedFloat03
      ≠ ⟨200, 2, 1, 1/2, EngineWeight_Elo_754⟩ := by
  refine ⟨by norm_num [dblThreshold, parsedFloat03],
          by norm_num [dblThreshold, parsedFloat03],
          getMovetimeMachine_parsedFloat03, ?_⟩
  rw [getMovetimeMachine_parsedFloat03]
  simp

set_option maxHeartbeats 1000000 in
/-- C1 amended: under the machine-precision thresholds the comparison
cascade still selects exactly one profile for every difficulty in the unit
interval (total, non-overlapping buckets), but the boundary request 0.3
parses to a float strictly above the double literal 0.3 and therefore
selects the next-higher bucket (elo-999, index 3), not the le-0.3 bucket
(elo-754, index 2). -/
theorem claim1_bucket_partition_amended :
    (∀ d : ℚ, 0 ≤ d → d ≤ 1 →
      ∃! i : ℕ, inBucketMachine i d ∧ getMovetimeMachine d = profileOf i) ∧
    getMovetimeMachine parsedFloat03 = profileOf 3 ∧
    getMovetimeMachine parsedFloat03 ≠ profileOf 2 := by
  refine ⟨?_, ?_, ?_⟩
  · intro d _ _
    refine ⟨bucketIndexMachine d,
      ⟨bucketIndexMachine_mem d, getMovetimeMachine_eq_profileOf d⟩, ?_⟩
    rintro j ⟨hj, _⟩
    exact inBucketMachine_unique d j (bucketIndexMachine d) hj
      (bucketIndexMachine_mem d)
  · rw [getMovetimeMachine_parsedFloat03]
    rfl
  · rw [getMovetimeMachine_parsedFloat03]
    simp [profileOf]

/-- C1 witness: the unique-bucket statement instantiated at the parsed
float for 0.3, which lies in the unit interval. -/
theorem claim1_bucket_partition_amended_witness :
    ∃! i : ℕ, inBucketMachine i parsedFloat03 ∧
      getMovetimeMachine parsedFloat03 = profileOf i :=
  claim1_bucket_partition_amended.1 parsedFloat03
    (by norm_num [parsedFloat03]) (by norm_num [parsedFloat03])

set_option maxHeartbeats 1000000 in
/-- C4: the resolver is a total function on all rational inputs, always
returning one of the table's profiles; anything at or below the lowest
threshold gets the lowest profile and anything above the second-highest
threshold gets the last profile.  Purity and determinism hold by
construction: the translation is a function of the input alone. -/
theorem claim4_resolver_total (d : ℚ) :
    getMovetime d = profileOf (bucketIndex d) ∧
    (d ≤ 1/10 → getMovetime d = profileOf 0) ∧
    (9/10 < d → getMovetime d = profileOf 9) := by
  refine ⟨getMovetime_eq_profileOf d, ?_, ?_⟩
  · intro h
    unfold getMovetime
    rw [if_pos h]
    rfl
  · intro h
    unfold getMovetime
    rw [if_neg (by linarith), if_neg (by linarith), if_neg (by linarith),
        if_neg (by linarith), if_neg (by linarith), if_neg (by linarith),
        if_neg (by linarith), if_neg (by linarith), if_neg (by linarith)]
    rfl

/-- C4 witness: inputs outside the unit interval still resolve, to the
extreme buckets. -/
theorem claim4_resolver_total_witness :
    getMovetime (-1) = profileOf 0 ∧ getMovetime 2 = profileOf 9 :=
  ⟨(claim4_resolver_total (-1)).2.1 (by norm_num),
   (claim4_resolver_total 2).2.2 (by norm_num)⟩

/-- Spec-side comparison of one budget component where a zero value means
unlimited and counts as the largest budget. -/
def budgetValLE (a b : Int) : Bool :=
  if b = 0 then true else if a = 0 then false else a ≤ b

/-- Spec-side strength order on search budgets, following the words of the
monotonicity property: time, depth and node budgets each at least as large,
zero depth or nodes meaning unlimited. -/
def strengthLE (a b : BotDifficultySettings) : Bool :=
  (a.movetime ≤ b.movetime) && budgetValLE a.depth b.depth &&
    budgetValLE a.nodes b.nodes

set_option maxHeartbeats 1000000 in
/-- C3 counterexample: 4/10 and 5/10 are increasing difficulties inside the
unit interval, yet the ≤0.4 bucket's budget (depth 30, unlimited nodes)
strictly exceeds the ≤0.5 bucket's (depth 4, 1 node), so the resolved
search budget is not non-decreasing in strength. -/
theorem claim3_budget_counterexample :
    (0 ≤ (4 : ℚ)/10 ∧ (4 : ℚ)/10 < 5/10 ∧ (5 : ℚ)/10 ≤ 1) ∧
    strengthLE (getMovetime (4/10)) (getMovetime (5/10)) = false := by
  refine ⟨⟨by norm_num, by norm_num, by norm_num⟩, ?_⟩
  have h4 : getMovetime (4/10) = ⟨200, 30, 0, 1/2, EngineWeight_Elo_999⟩ := by
    unfold getMovetime
    rw [if_neg (by norm_num), if_neg (by norm_num), if_neg (by norm_num),
        if_pos (by norm_num)]
  have h5 : getMovetime (5/10) = ⟨200, 4, 1, 1/2, EngineWeight_Maia_1100⟩ := by
    unfold getMovetime
    rw [if_neg (by norm_num), if_neg (by norm_num), if_neg (by norm_num),
        if_neg (by norm_num), if_pos (by norm_num)]
  rw [h4, h5]
  rfl

set_option maxHeartbeats 1000000 in
/-- C3 amended: the time budget is non-decreasing in difficulty (it is
constant at 200 ms), but the depth and node budgets are not monotone: the
≤0.4 bucket has depth 30 with unlimited nodes while the next bucket up has
depth 4 with a single node. -/
theorem claim3_budget_monotonicity_amended :
    (∀ d1 d2 : ℚ, d1 < d2 →
      (getMovetime d1).movetime ≤ (getMovetime d2).movetime) ∧
    (getMovetime (4/10)).depth = 30 ∧ (getMovetime (4/10)).nodes = 0 ∧
    (getMovetime (5/10)).depth = 4 ∧ (getMovetime (5/10)).nodes = 1 := by
  have h4 : getMovetime (4/10) = ⟨200, 30, 0, 1/2, EngineWeight_Elo_999⟩ := by
    unfold getMovetime
    rw [if_neg (by norm_num), if_neg (by norm_num), if_neg (by norm_num),
        if_pos (by norm_num)]
  have h5 : getMovetime (5/10) = ⟨200, 4, 1, 1/2, EngineWeight_Maia_1100⟩ := by
    unfold getMovetime
    rw [if_neg (by norm_num), if_neg (by norm_num), if_neg (by norm_num),
        if_neg (by norm_num), if_pos (by norm_num)]
  refine ⟨?_, by rw [h4], by rw [h4], by rw [h5], by rw [h5]⟩
  intro d1 d2 _
  rw [getMovetime_movetime, getMovetime_movetime]

/-- C3 witness: the amended monotonicity instantiated at 0 and 1. -/
theorem claim3_budget_monotonicity_amended_witness :
    (getMovetime 0).movetime ≤ (getMovetime 1).movetime :=
  claim3_budget_monotonicity_amended.1 0 1 (by norm_num)

set_option maxHeartbeats 1000000 in
/-- C10: every difficulty resolves to the same 200 ms time budget and the
same temperature 1/2, while the model identity and the depth budget do vary
across buckets (shown at 3/10 against 7/10). -/
theorem claim10_constant_time_and_temperature (d : ℚ) :
    (getMovetime d).movetime = 200 ∧ (getMovetime d).temperature = 1/2 ∧
    (getMovetime (3/10)).model ≠ (getMovetime (7/10)).model ∧
    (getMovetime (3/10)).depth ≠ (getMovetime (7/10)).depth := by
  have h3 : getMovetime (3/10) = ⟨200, 2, 1, 1/2, EngineWeight_Elo_754⟩ := by
    unfold getMovetime
    rw [if_neg (by norm_num), if_neg (by norm_num), if_pos (by norm_num)]
  have h7 : getMovetime (7/10) = ⟨200, 0, 1, 1/2, EngineWeight_Maia_1900⟩ := by
    unfold getMovetime
    rw [if_neg (by norm_num), if_neg (by norm_num), if_neg (by norm_num),
        if_neg (by norm_num), if_neg (by norm_num), if_neg (by norm_num),
        if_pos (by norm_num)]
  refine ⟨getMovetime_movetime d, getMovetime_temperature d, ?_, ?_⟩
  · rw [h3, h7]
    simp [EngineWeight_Elo_754, EngineWeight_Maia_1900]
  · rw [h3, h7]
    simp

/-- Cache-hit behaviour of the registry: a stored engine is returned and the
state is untouched. -/
theorem getOrCreateEngine_hit (settings : BotDifficultySettings)
    (st : RegistryState) (id : ℕ)
    (h : st.entries.lookup settings.model = some id) :
    getOrCreateEngine settings st = (id, st) := by
  unfold getOrCreateEngine
  rw [h]

/-- Cache-miss behaviour of the registry: the new engine index is returned
together with the created-and-configured state. -/
theorem getOrCreateEngine_miss (settings : BotDifficultySettings)
    (st : RegistryState)
    (h : st.entries.lookup settings.model = none) :
    getOrCreateEngine settings st = (st.nextId, createdRegistry settings st) := by
  unfold getOrCreateEngine
  rw [h]

/-- After a miss created the entry, looking the same weight up again finds
the new engine. -/
theorem lookup_createdRegistry (settings : BotDifficultySettings)
    (st : RegistryState) :
    (createdRegistry settings st).entries.lookup settings.model
      = some st.nextId := by
  simp [createdRegistry, List.lookup]

/-- C5: asking the registry twice for the same weight returns the same
engine instance (identified by its creation index) and leaves the state
unchanged on the second call; the three option-setting side effects are
appended exactly once, on the first (miss) call, and a hit call performs
none. -/
theorem claim5_engine_cache_idempotent (settings : BotDifficultySettings)
    (st : RegistryState) :
    (getOrCreateEngine settings (getOrCreateEngine settings st).2).1
      = (getOrCreateEngine settings st).1 ∧
    (getOrCreateEngine settings (getOrCreateEngine settings st).2).2
      = (getOrCreateEngine settings st).2 ∧
    (st.entries.lookup settings.model = none →
      (getOrCreateEngine settings st).2.configLog
        = st.configLog ++
            (configOptions settings).map (fun p => (settings.model, p.1, p.2))) ∧
    (st.entries.lookup settings.model ≠ none →
      (getOrCreateEngine settings st).2 = st) := by
  rcases hlk : st.entries.lookup settings.model with _ | id
  · rw [getOrCreateEngine_miss settings st hlk]
    rw [show ((st.nextId, createdRegistry settings st)).2 = createdRegistry settings st from rfl,
        getOrCreateEngine_hit settings (createdRegistry settings st) st.nextId
          (lookup_createdRegistry settings st)]
    refine ⟨rfl, rfl, fun _ => rfl, fun hne => absurd rfl hne⟩
  · rw [getOrCreateEngine_hit settings st id hlk]
    rw [show ((id, st)).2 = st from rfl, getOrCreateEngine_hit settings st id hlk]
    exact ⟨rfl, rfl, fun h => Option.noConfusion h, fun _ => rfl⟩

/-- C5 witness: first request for the lowest-difficulty weight configures
it once from the empty registry, and a repeated request changes nothing. -/
theorem claim5_engine_cache_idempotent_witness :
    (getOrCreateEngine (getMovetime 0) initialRegistry).2.configLog
      = ([] : List (String × String × String)) ++
          (configOptions (getMovetime 0)).map
            (fun p => ((getMovetime 0).model, p.1, p.2)) ∧
    (getOrCreateEngine (getMovetime 0)
        (getOrCreateEngine (getMovetime 0) initialRegistry).2).2
      = (getOrCreateEngine (getMovetime 0) initialRegistry).2 :=
  ⟨(claim5_engine_cache_idempotent (getMovetime 0) initialRegistry).2.2.1 rfl,
   (claim5_engine_cache_idempotent (getMovetime 0) initialRegistry).2.1⟩

/-- C2 counterexample: identities 1 and 2 are distinct responses, yet when
the slot holds response 1 the callback never aborts; it delivers the result
into the stored response 1 and clears the slot, with no comparison against
the identity of the request the engine was actually working for. -/
theorem claim2_callback_identity_counterexample :
    (1 : ResponseId) ≠ 2 ∧
    fireCallback sampleInfo { slot := some 1, written := [] }
      ≠ StepResult.abortProcess ∧
    fireCallback sampleInfo { slot := some 1, written := [] }
      = StepResult.next
          { slot := none, written := [(1, infoToJsonString sampleInfo)] } := by
  refine ⟨by norm_num, fun h => ?_, rfl⟩
  rw [show fireCallback sampleInfo { slot := some 1, written := [] }
        = StepResult.next
            { slot := none, written := [(1, infoToJsonString sampleInfo)] }
      from rfl] at h
  exact StepResult.noConfusion h

/-- C2 amended: the callback checks only that the slot is non-empty.  A
non-empty slot receives the serialized result (whatever response identity it
holds) and is cleared; an empty slot is a fatal invariant violation and the
process aborts.  No comparison against the firing request's identity is
made, so a slot holding a different request's response would be written to,
not aborted on. -/
theorem claim2_callback_empty_check_amended (info : BestMoveInfo)
    (r : ResponseId) (w : List (ResponseId × String)) :
    fireCallback info { slot := some r, written := w }
      = StepResult.next
          { slot := none, written := w ++ [(r, infoToJsonString info)] } ∧
    fireCallback info { slot := none, written := w }
      = StepResult.abortProcess :=
  ⟨rfl, rfl⟩

/-- C6: firing the completion callback while the handoff slot is empty
aborts the process instead of silently succeeding. -/
theorem claim6_callback_on_empty_aborts (info : BestMoveInfo)
    (w : List (ResponseId × String)) :
    fireCallback info { slot := none, written := w }
      = StepResult.abortProcess := rfl

/-- C7: when the difficulty parameter does not parse as a number, the
facade takes the catch-and-abort path: the request ends fatally and no 200
response with a body is ever produced. -/
theorem claim7_malformed_difficulty_fatal (stof : String → Option ℚ)
    (difficultyParam fen : String)
    (engineRun : BotDifficultySettings → GoParams → String → BestMoveInfo)
    (st : RegistryState)
    (h : stof difficultyParam = none) :
    (handleRequest stof difficultyParam fen engineRun st).1 = RequestResult.fatal ∧
    ∀ body, (handleRequest stof difficultyParam fen engineRun st).1
      ≠ RequestResult.ok body := by
  unfold handleRequest
  rw [h]
  exact ⟨rfl, fun body h' => RequestResult.noConfusion h'⟩

/-- C7 witness: a parser rejecting every string makes the request with the
literal notanumber parameter end fatally. -/
theorem claim7_malformed_difficulty_fatal_witness :
    (handleRequest (fun _ => none) "notanumber" "startfen"
        (fun _ _ _ => sampleInfo) initialRegistry).1 = RequestResult.fatal :=
  (claim7_malformed_difficulty_fatal (fun _ => none) "notanumber" "startfen"
    (fun _ _ _ => sampleInfo) initialRegistry rfl).1

/-- C8: every serialized best move has the documented shape, with the
promotion member present exactly when the move carries a promotion, and a
present promotion suffix is one of b, n, q, r. -/
theorem claim8_response_shape (info : BestMoveInfo) :
    infoToJsonString info
      = responseShape info.bestmove.fromSq.as_string
          info.bestmove.toSq.as_string
          (promoSuffix info.bestmove.promotion) ∧
    ((promoSuffix info.bestmove.promotion).isSome ↔
      info.bestmove.promotion ≠ Promotion.NoPromotion) ∧
    (∀ p, promoSuffix info.bestmove.promotion = some p →
      p = "b" ∨ p = "n" ∨ p = "q" ∨ p = "r") := by
  obtain ⟨⟨f, t, promo⟩⟩ := info
  cases promo with
  | NoPromotion =>
      exact ⟨rfl, by simp [promoSuffix], fun p hp => Option.noConfusion hp⟩
  | Queen =>
      refine ⟨rfl, by simp [promoSuffix], fun p hp => ?_⟩
      injection hp with hp
      exact Or.inr (Or.inr (Or.inl hp.symm))
  | Rook =>
      refine ⟨rfl, by simp [promoSuffix], fun p hp => ?_⟩
      injection hp with hp
      exact Or.inr (Or.inr (Or.inr hp.symm))
  | Bishop =>
      refine ⟨rfl, by simp [promoSuffix], fun p hp => ?_⟩
      injection hp with hp
      exact Or.inl hp.symm
  | Knight =>
      refine ⟨rfl, by simp [promoSuffix], fun p hp => ?_⟩
      injection hp with hp
      exact Or.inr (Or.inl hp.symm)

/-- C8 witness: the shape statement instantiated at a queen promotion, the
inner hypothesis discharged at the suffix q. -/
theorem claim8_response_shape_witness :
    infoToJsonString samplePromoInfo
      = responseShape samplePromoInfo.bestmove.fromSq.as_string
          samplePromoInfo.bestmove.toSq.as_string
          (promoSuffix samplePromoInfo.bestmove.promotion) ∧
    ("q" = "b" ∨ "q" = "n" ∨ "q" = "q" ∨ "q" = "r") :=
  ⟨(claim8_response_shape samplePromoInfo).1,
   (claim8_response_shape samplePromoInfo).2.2 "q" rfl⟩

/-- C9: starting from the state the request thread arms (its own response
stored in the slot), the polling loop cannot have exited before a callback
fired; once the loop observes that the slot no longer holds its response,
the callback has already written the serialized result into exactly that
response and cleared the slot, and any further firing would abort, so the
slot is consumed exactly once. -/
theorem claim9_handoff_protocol (r : ResponseId) (info : BestMoveInfo)
    (s : BridgeState)
    (hreach : CallbackReaches info (armedState r) s)
    (hexit : loopContinues r s = false) :
    s.slot = none ∧ s.written = [(r, infoToJsonString info)] ∧
    fireCallback info s = StepResult.abortProcess := by
  cases hreach with
  | refl => simp [loopContinues, armedState] at hexit
  | step hstep htail =>
      rw [show fireCallback info (armedState r)
            = StepResult.next
                { slot := none, written := [(r, infoToJsonString info)] }
          from rfl] at hstep
      injection hstep with h1
      subst h1
      have hterm := callbackReaches_terminal rfl htail
      subst hterm
      exact ⟨rfl, rfl, rfl⟩

/-- C9 witness: one callback firing from the armed state reaches the
consumed state, where the loop exit condition holds and the conclusions
evaluate. -/
theorem claim9_handoff_protocol_witness :
    ({ slot := none,
       written := [((0 : ResponseId), infoToJsonString sampleInfo)] } :
      BridgeState).slot = none ∧
    ({ slot := none,
       written := [((0 : ResponseId), infoToJsonString sampleInfo)] } :
      BridgeState).written = [((0 : ResponseId), infoToJsonString sampleInfo)] ∧
    fireCallback sampleInfo
      { slot := none,
        written := [((0 : ResponseId), infoToJsonString sampleInfo)] }
      = StepResult.abortProcess :=
  claim9_handoff_protocol 0 sampleInfo
    { slot := none, written := [((0 : ResponseId), infoToJsonString sampleInfo)] }
    (CallbackReaches.step rfl (CallbackReaches.refl _)) rfl

end LcServe
